import Mathlib

/-!
Verification of the raw-buffer operations of the `amdgpu` MLIR dialect
(`AMDGPU_RawBufferLoadOp`, `AMDGPU_RawBufferStoreOp`,
`AMDGPU_RawBufferAtomicFaddOp`) and of libc++'s `std::__set_intersection`.

The dialect's TableGen file declares the operand/result type constraints
(`AnyTypeOf<[BF16, F16, F32, I32, I8, VectorOfLengthAndType<...>]>`, the
`AllElementTypesMatch` trait) and documents the lowering contract: how the
memref is turned into a buffer resource descriptor and how the indices,
`indexOffset` and `sgprOffset` become the intrinsic's byte offsets.  The
C++ that implements the lowering pattern and the generated parser/printer
are not part of the excerpt, so those are modelled from the specification
(each such definition carries a `Modelled from the spec:` doc comment);
everything else is translated directly from the TableGen declarations or,
for `__set_intersection`, from the C++ source.
-/

/-! ## Data model: element types, value types, memrefs -/

/-- Scalar element kinds admitted by the raw buffer ops' type constraints
(`BF16`, `F16`, `F32`, `I32`, `I8` in the TableGen file). -/
inductive ScalarType where
  | bf16
  | f16
  | f32
  | i32
  | i8
deriving DecidableEq

/-- A value operand/result type: one of the scalar kinds or a fixed-width
vector of one of them (`VectorOfLengthAndType` in the TableGen file). -/
inductive ValueType where
  | scalar (t : ScalarType)
  | vector (len : Nat) (t : ScalarType)
deriving DecidableEq

/-- The element type underlying a value type, used by the
`AllElementTypesMatch<["value", "memref"]>` trait. -/
def elementTypeOf : ValueType → ScalarType
  | .scalar t => t
  | .vector _ t => t

/-- Byte size of one scalar element (f32/i32 are 4 bytes, the 16-bit float
family 2 bytes, i8 one byte). -/
def elementByteSize : ScalarType → Nat
  | .bf16 => 2
  | .f16 => 2
  | .f32 => 4
  | .i32 => 4
  | .i8 => 1

/-- A per-dimension size of a memref shape: a static constant or a
dynamically-sized dimension whose extent is only known at runtime. -/
inductive DimSize where
  | static (n : Nat)
  | dynamic
deriving DecidableEq

/-- A memref type as consumed by the raw buffer ops: scalar element type,
per-dimension sizes (static or dynamic), per-dimension strides in element
units, and the base address contributed by the memref descriptor. -/
structure MemRefT where
  elementType : ScalarType
  sizes : List DimSize
  strides : List Nat
  baseAddress : Nat
deriving DecidableEq

/-- Resolve the (possibly dynamic) dimension sizes of a shape against the
runtime-provided sizes: static dimensions keep their constant, each dynamic
dimension consumes the next runtime size (0 when none is supplied). -/
def resolveSizes : List DimSize → List Nat → List Nat
  | [], _ => []
  | .static n :: ds, rs => n :: resolveSizes ds rs
  | .dynamic :: ds, r :: rs => r :: resolveSizes ds rs
  | .dynamic :: ds, [] => 0 :: resolveSizes ds []

/-- Modelled from the spec: `totalByteExtent` of the memory reference (the
lowering C++ that computes the descriptor's num-records is not in the
excerpt).  It is `max over d of (size(d) * stride(d))` times the element
byte size, exactly the formula the op description documents for the
number of records (`max_d (size(d) * stride(d)) * sizeof(elementType)`). -/
def totalByteExtent (sizes strides : List Nat) (elemSize : Nat) : Nat :=
  ((List.zipWith (· * ·) sizes strides).foldr max 0) * elemSize

/-! ## Operations -/

/-- The three raw buffer operation variants. -/
inductive BufferOpKind where
  | load
  | store
  | atomicFadd
deriving DecidableEq

/-- A raw buffer operation.  `valueId` is the SSA name of the value (the
result for a load, the stored/added operand otherwise), `valueType` its
type; `memrefId` is the SSA name of the memref operand and `memref` its
type; `indices` are the i32 index operands (each modelled by the integer
it evaluates to, which also serves as its SSA name in the surface syntax);
`boundsCheck` is the boolean attribute defaulting to true, `indexOffset`
the optional compile-time i32 attribute and `sgprOffset` the optional
runtime i32 operand. -/
structure BufferOp where
  kind : BufferOpKind
  valueId : Nat
  valueType : ValueType
  memrefId : Nat
  memref : MemRefT
  indices : List Nat
  boundsCheck : Bool
  indexOffset : Option Nat
  sgprOffset : Option Nat
deriving DecidableEq

/-- Target chipset generation: `generationA` is the RDNA family on which
disabling bounds checks is representable in the descriptor, `generationB`
any other (bounds checks always enforced). -/
inductive ChipsetClass where
  | generationA
  | generationB
deriving DecidableEq

/-! ## Descriptor construction -/

/-- A buffer resource descriptor (a V#), field by field as the op
description enumerates them. -/
structure BufferDescriptor where
  baseAddress : Nat
  stride : Nat
  numRecords : Nat
  offsetEnable : Bool
  indexEnable : Bool
  threadIdAdd : Bool
  oobSelect : Nat
  cacheCoherency : Nat
deriving DecidableEq

/-- Modelled from the spec: the descriptor builder (the lowering C++ is not
in the excerpt; the TableGen op description documents every field).  The
base address is the memref's base address, the stride is 0 (raw mode), the
number of records is the total byte extent computed from the runtime-
resolved sizes, offset-enable is on, index-enable and thread-ID-add are
off, OOB_SELECT is 2 exactly when `boundsCheck` is false and the chipset is
RDNA (`generationA`) and 3 otherwise, and the cache-coherency bits are 0. -/
def makeBufferDescriptor (mem : MemRefT) (runtimeSizes : List Nat)
    (boundsCheck : Bool) (chipset : ChipsetClass) : BufferDescriptor :=
  { baseAddress := mem.baseAddress
    stride := 0
    numRecords := totalByteExtent (resolveSizes mem.sizes runtimeSizes)
      mem.strides (elementByteSize mem.elementType)
    offsetEnable := true
    indexEnable := false
    threadIdAdd := false
    oobSelect :=
      if boundsCheck = false ∧ chipset = ChipsetClass.generationA then 2 else 3
    cacheCoherency := 0 }

/-- Claim C1: the OOB-select field of the constructed descriptor is 2
exactly when `boundsCheck` is false and the chipset class is `generationA`
(RDNA), and in every other case it is 3. -/
theorem oobSelect_policy (mem : MemRefT) (rs : List Nat) (b : Bool)
    (c : ChipsetClass) :
    ((makeBufferDescriptor mem rs b c).oobSelect = 2 ↔
      (b = false ∧ c = ChipsetClass.generationA)) ∧
    ((makeBufferDescriptor mem rs b c).oobSelect = 2 ∨
      (makeBufferDescriptor mem rs b c).oobSelect = 3) := by
  cases b <;> cases c <;> simp [makeBufferDescriptor]

/-! ## Verification -/

/-- The value type constraint of `RawBufferLoadOp`'s result and
`RawBufferStoreOp`'s value operand, direct from the TableGen
`AnyTypeOf<[BF16, F16, F32, I32, I8,
VectorOfLengthAndType<[2, 4], [F32, I32]>,
VectorOfLengthAndType<[2, 4, 8], [F16, BF16]>,
VectorOfLengthAndType<[2, 4, 8, 16], [I8]>]>` constraint. -/
def tdLoadStoreTypeOk : ValueType → Bool
  | .scalar _ => true
  | .vector n .f32 => n == 2 || n == 4
  | .vector n .i32 => n == 2 || n == 4
  | .vector n .f16 => n == 2 || n == 4 || n == 8
  | .vector n .bf16 => n == 2 || n == 4 || n == 8
  | .vector n .i8 => n == 2 || n == 4 || n == 8 || n == 16

/-- The value type constraint of an operation variant: load and store use
the whitelist above; `RawBufferAtomicFaddOp` declares its value operand as
`F32` (scalar 32-bit float only). -/
def tdValueTypeOk : BufferOpKind → ValueType → Bool
  | .atomicFadd, vt => vt = ValueType.scalar ScalarType.f32
  | .load, vt => tdLoadStoreTypeOk vt
  | .store, vt => tdLoadStoreTypeOk vt

/-- The verification diagnostics an operation can fail with. -/
inductive VerificationError where
  | invalidValueType
  | elementTypeMismatch
  | tooManyIndices
deriving DecidableEq

/-- The verifier of a raw buffer operation: the declared value type
constraint of the variant, the `AllElementTypesMatch<["value", "memref"]>`
trait (exact equality of element types), and — modelled from the spec,
which requires it of the verifier though the excerpt only declares the
operands — that the index operand count not exceed the memref's rank. -/
def verifyOp (op : BufferOp) : Option VerificationError :=
  if ¬ tdValueTypeOk op.kind op.valueType then
    some VerificationError.invalidValueType
  else if ¬ elementTypeOf op.valueType = op.memref.elementType then
    some VerificationError.elementTypeMismatch
  else if op.memref.sizes.length < op.indices.length then
    some VerificationError.tooManyIndices
  else
    none

/-! ## Lowering -/

/-- Modelled from the spec: the linearized element index resolved from the
index operands, the per-dimension strides and the compile-time index
offset (the lowering C++ is not in the excerpt; the op description states
the index is computed as for `memref.load` plus `indexOffset`):
`Σ_d index[d] * stride[d] + indexOffset`. -/
def linearIndex (indices strides : List Nat) (indexOffset : Nat) : Nat :=
  (List.zipWith (· * ·) indices strides).sum + indexOffset

/-- The raw buffer intrinsic call the lowering emits: optional value
operand, resource descriptor, per-thread vector index in bytes (subject to
hardware bounds checking), scalar offset in bytes (added after bounds
checking), and the cache policy bits. -/
structure RawInstruction where
  value : Option ValueType
  descriptor : BufferDescriptor
  vectorIndexBytes : Nat
  scalarOffsetBytes : Nat
  cachePolicyBits : Nat
deriving DecidableEq

/-- Modelled from the spec: the lowering of a (verified) raw buffer
operation to the intrinsic call (the lowering C++ is not in the excerpt;
the op description documents the translation).  All indices and offsets
are in units of the memref's element type and are scaled to bytes here:
the vector index is the linearized index (indices, strides, `indexOffset`)
times the element byte size, the scalar offset is the `sgprOffset` operand
times the element byte size, and the descriptor is built as documented.
`runtimeSizes` supplies the extents of dynamically-sized dimensions. -/
def lower (op : BufferOp) (chipset : ChipsetClass)
    (runtimeSizes : List Nat) : RawInstruction :=
  { value :=
      match op.kind with
      | .load => none
      | .store => some op.valueType
      | .atomicFadd => some op.valueType
    descriptor := makeBufferDescriptor op.memref runtimeSizes
      op.boundsCheck chipset
    vectorIndexBytes :=
      linearIndex op.indices op.memref.strides (op.indexOffset.getD 0) *
        elementByteSize op.memref.elementType
    scalarOffsetBytes :=
      op.sgprOffset.getD 0 * elementByteSize op.memref.elementType
    cachePolicyBits := 0 }

/-- The verify-then-lower pipeline: a verification failure aborts the
lowering of the operation (no instruction, hence no partial descriptor, is
produced), otherwise the lowered instruction is emitted. -/
def lowerPipeline (op : BufferOp) (chipset : ChipsetClass)
    (runtimeSizes : List Nat) : Except VerificationError RawInstruction :=
  match verifyOp op with
  | some e => Except.error e
  | none => Except.ok (lower op chipset runtimeSizes)

/-- Whether the pipeline rejected the operation with a verification
diagnostic. -/
def isVerificationFailure :
    Except VerificationError RawInstruction → Bool
  | .error _ => true
  | .ok _ => false

/-! ## Example operation and verifier characterization -/

/-- The example operation of the spec: a load of an f32 result from a
`memref<8xf32>` (stride `[1]`), index operands `[7]`, no index offset, no
sgpr offset, bounds checking on. -/
def exOp : BufferOp :=
  { kind := BufferOpKind.load
    valueId := 0
    valueType := ValueType.scalar ScalarType.f32
    memrefId := 1
    memref :=
      { elementType := ScalarType.f32
        sizes := [DimSize.static 8]
        strides := [1]
        baseAddress := 0 }
    indices := [7]
    boundsCheck := true
    indexOffset := none
    sgprOffset := none }

theorem verifyOp_none_iff (op : BufferOp) :
    verifyOp op = none ↔
      (tdValueTypeOk op.kind op.valueType = true ∧
       elementTypeOf op.valueType = op.memref.elementType ∧
       op.indices.length ≤ op.memref.sizes.length) := by
  by_cases h1 : tdValueTypeOk op.kind op.valueType <;>
    by_cases h2 : elementTypeOf op.valueType = op.memref.elementType <;>
    by_cases h3 : op.memref.sizes.length < op.indices.length <;>
    simp [verifyOp, h1, h2, h3]
  omega

theorem pipeline_ok_iff (op : BufferOp) (c : ChipsetClass) (rs : List Nat) :
    isVerificationFailure (lowerPipeline op c rs) = false ↔
      verifyOp op = none := by
  unfold lowerPipeline
  cases h : verifyOp op <;> simp [isVerificationFailure]

/-- Claim C2: for every verified operation the emitted instruction carries
`vectorIndexBytes = (Σ_d index[d]*stride[d] + indexOffset) * elementByteSize`
and `scalarOffsetBytes = sgprOffset * elementByteSize` (the optional
attributes defaulting to 0). -/
theorem lowered_offset_arithmetic (op : BufferOp) (c : ChipsetClass)
    (rs : List Nat) (h : verifyOp op = none) :
    lowerPipeline op c rs = Except.ok (lower op c rs) ∧
    (lower op c rs).vectorIndexBytes =
      ((List.zipWith (· * ·) op.indices op.memref.strides).sum +
        op.indexOffset.getD 0) * elementByteSize op.memref.elementType ∧
    (lower op c rs).scalarOffsetBytes =
      op.sgprOffset.getD 0 * elementByteSize op.memref.elementType := by
  refine ⟨by simp [lowerPipeline, h], rfl, rfl⟩

/-- Claim C2, witnessed on the spec's example: f32 elements (4 bytes),
strides `[1]`, indices `[7]`, no index offset, giving 28 bytes. -/
theorem lowered_offset_arithmetic_witness :
    verifyOp exOp = none ∧
    lowerPipeline exOp ChipsetClass.generationB [] =
      Except.ok (lower exOp ChipsetClass.generationB []) ∧
    (lower exOp ChipsetClass.generationB []).vectorIndexBytes = 28 := by
  have h := lowered_offset_arithmetic exOp ChipsetClass.generationB []
    (by decide)
  exact ⟨by decide, h.1, by decide⟩

/-- Claim C3: the runtime scalar offset operand contributes neither to the
bounds-checked vector index nor to the descriptor (in particular not to
its num-records bound); it only produces the post-bounds scalar offset,
scaled to bytes. -/
theorem sgprOffset_not_bounds_checked (op : BufferOp) (c : ChipsetClass)
    (rs : List Nat) (s₁ s₂ : Option Nat) :
    (lower { op with sgprOffset := s₁ } c rs).vectorIndexBytes =
      (lower { op with sgprOffset := s₂ } c rs).vectorIndexBytes ∧
    (lower { op with sgprOffset := s₁ } c rs).descriptor =
      (lower { op with sgprOffset := s₂ } c rs).descriptor ∧
    (lower { op with sgprOffset := s₁ } c rs).scalarOffsetBytes =
      s₁.getD 0 * elementByteSize op.memref.elementType :=
  ⟨rfl, rfl, rfl⟩

theorem resolveSizes_static (ns rs : List Nat) :
    resolveSizes (ns.map DimSize.static) rs = ns := by
  induction ns with
  | nil => rfl
  | cons n ns ih => simp [resolveSizes, ih]

/-- Claim C4: the descriptor's num-records field is
`max_d (size(d) * stride(d)) * elementByteSize`, evaluated on the
runtime-resolved sizes; for a fully static shape the resolved sizes are
the static constants regardless of the runtime sizes supplied (a
compile-time constant); 8 f32 elements with stride `[1]` give 32 bytes. -/
theorem numRecords_totalByteExtent :
    (∀ (op : BufferOp) (c : ChipsetClass) (rs : List Nat),
      (lower op c rs).descriptor.numRecords =
        ((List.zipWith (· * ·) (resolveSizes op.memref.sizes rs)
          op.memref.strides).foldr max 0) *
          elementByteSize op.memref.elementType) ∧
    (∀ (ns rs : List Nat),
      resolveSizes (List.map DimSize.static ns) rs = ns) ∧
    (lower exOp ChipsetClass.generationB []).descriptor.numRecords = 32 :=
  ⟨fun _ _ _ => rfl, resolveSizes_static, by decide⟩

/-- A store whose value element type (i32) differs from the memref's
element type (f32); the value type itself is in the whitelist. -/
def mismatchedOp : BufferOp :=
  { exOp with
    kind := BufferOpKind.store
    valueType := ValueType.scalar ScalarType.i32 }

/-- Claim C5: the pipeline accepts an operation only when the value's
element type equals the memref's element type exactly, and any mismatch is
rejected with a verification diagnostic before any lowering happens. -/
theorem elementType_match_required (op : BufferOp) (c : ChipsetClass)
    (rs : List Nat) :
    (¬ elementTypeOf op.valueType = op.memref.elementType →
      isVerificationFailure (lowerPipeline op c rs) = true) ∧
    (isVerificationFailure (lowerPipeline op c rs) = false →
      elementTypeOf op.valueType = op.memref.elementType) := by
  constructor
  · intro h
    by_contra hc
    have hok' : isVerificationFailure (lowerPipeline op c rs) = false :=
      Bool.not_eq_true _ ▸ hc
    exact h ((verifyOp_none_iff op).mp ((pipeline_ok_iff op c rs).mp hok')).2.1
  · intro hok
    exact ((verifyOp_none_iff op).mp ((pipeline_ok_iff op c rs).mp hok)).2.1

/-- Claim C5, witnessed: the store of an i32 value into an f32 memref is
rejected. -/
theorem elementType_match_required_witness :
    isVerificationFailure
      (lowerPipeline mismatchedOp ChipsetClass.generationA []) = true :=
  (elementType_match_required mismatchedOp ChipsetClass.generationA []).1
    (by decide)

/-- The enumerated whitelist of load/store value types: the five scalar
kinds, vectors of 2 or 4 lanes of f32/i32, vectors of 2, 4 or 8 lanes of
f16/bf16, and vectors of 2, 4, 8 or 16 lanes of i8. -/
def loadStoreWhitelist : List ValueType :=
  [ValueType.scalar ScalarType.f16, ValueType.scalar ScalarType.bf16,
   ValueType.scalar ScalarType.f32, ValueType.scalar ScalarType.i32,
   ValueType.scalar ScalarType.i8,
   ValueType.vector 2 ScalarType.f32, ValueType.vector 4 ScalarType.f32,
   ValueType.vector 2 ScalarType.i32, ValueType.vector 4 ScalarType.i32,
   ValueType.vector 2 ScalarType.f16, ValueType.vector 4 ScalarType.f16,
   ValueType.vector 8 ScalarType.f16,
   ValueType.vector 2 ScalarType.bf16, ValueType.vector 4 ScalarType.bf16,
   ValueType.vector 8 ScalarType.bf16,
   ValueType.vector 2 ScalarType.i8, ValueType.vector 4 ScalarType.i8,
   ValueType.vector 8 ScalarType.i8, ValueType.vector 16 ScalarType.i8]

/-- The admissible value types of a variant, stated as the spec enumerates
them: membership in the whitelist for load/store, exactly scalar f32 for
the atomic add. -/
def typeAllowed : BufferOpKind → ValueType → Prop
  | .load, vt => vt ∈ loadStoreWhitelist
  | .store, vt => vt ∈ loadStoreWhitelist
  | .atomicFadd, vt => vt = ValueType.scalar ScalarType.f32

theorem tdLoadStoreTypeOk_iff (vt : ValueType) :
    tdLoadStoreTypeOk vt = true ↔ vt ∈ loadStoreWhitelist := by
  cases vt with
  | scalar t => cases t <;> simp [tdLoadStoreTypeOk, loadStoreWhitelist]
  | vector n t =>
      cases t <;> simp [tdLoadStoreTypeOk, loadStoreWhitelist] <;> tauto

/-- An atomic floating point add whose value operand is a 2-wide f32
vector (a type the load/store variants would accept). -/
def vectorFaddOp : BufferOp :=
  { exOp with
    kind := BufferOpKind.atomicFadd
    valueType := ValueType.vector 2 ScalarType.f32 }

/-- Claim C6: an accepted load or store has its value type in the
enumerated whitelist and an accepted atomic add has value type exactly
scalar f32; any value type outside the variant's admissible set is
rejected with a verification diagnostic. -/
theorem valueType_whitelist (op : BufferOp) (c : ChipsetClass)
    (rs : List Nat) :
    (verifyOp op = none → typeAllowed op.kind op.valueType) ∧
    (¬ typeAllowed op.kind op.valueType →
      isVerificationFailure (lowerPipeline op c rs) = true) := by
  have hbr : tdValueTypeOk op.kind op.valueType = true ↔
      typeAllowed op.kind op.valueType := by
    cases op.kind <;>
      simp [tdValueTypeOk, typeAllowed, tdLoadStoreTypeOk_iff]
  constructor
  · intro h
    exact hbr.mp ((verifyOp_none_iff op).mp h).1
  · intro h
    by_contra hc
    have hok : isVerificationFailure (lowerPipeline op c rs) = false :=
      Bool.not_eq_true _ ▸ hc
    exact h (hbr.mp ((verifyOp_none_iff op).mp
      ((pipeline_ok_iff op c rs).mp hok)).1)

/-- Claim C6, witnessed: the atomic add of a vector value is rejected. -/
theorem valueType_whitelist_witness :
    isVerificationFailure
      (lowerPipeline vectorFaddOp ChipsetClass.generationB []) = true :=
  (valueType_whitelist vectorFaddOp ChipsetClass.generationB []).2
    (by simp [vectorFaddOp, typeAllowed])

/-- Claim C7: every constructed descriptor has stride 0, offset-enable on,
index-enable off, thread-ID-add off and cache-coherency bits 0, and the
base address and num-records fields do not depend on the bounds-check
policy (the OOB-select field is the only one that can vary with it). -/
theorem descriptor_fixed_fields (mem : MemRefT) (rs : List Nat)
    (b b' : Bool) (c c' : ChipsetClass) :
    (makeBufferDescriptor mem rs b c).stride = 0 ∧
    (makeBufferDescriptor mem rs b c).offsetEnable = true ∧
    (makeBufferDescriptor mem rs b c).indexEnable = false ∧
    (makeBufferDescriptor mem rs b c).threadIdAdd = false ∧
    (makeBufferDescriptor mem rs b c).cacheCoherency = 0 ∧
    (makeBufferDescriptor mem rs b c).baseAddress =
      (makeBufferDescriptor mem rs b' c').baseAddress ∧
    (makeBufferDescriptor mem rs b c).numRecords =
      (makeBufferDescriptor mem rs b' c').numRecords :=
  ⟨rfl, rfl, rfl, rfl, rfl, rfl, rfl⟩

/-! ## Surface syntax: printer and parser -/

/-- A token of the textual surface form of a raw buffer operation.  SSA
operand references, attribute literals and types are carried as payloads;
punctuation and keywords mirror the declared assembly format. -/
inductive Token where
  | mnemonic (k : BufferOpKind)
  | ssa (id : Nat)
  | lbrace
  | rbrace
  | lbracket
  | rbracket
  | comma
  | colon
  | equals
  | arrow
  | kwSgprOffset
  | kwBoundsCheck
  | kwIndexOffset
  | boolLit (b : Bool)
  | intLit (n : Nat)
  | i32ty
  | mty (m : MemRefT)
  | vty (v : ValueType)
deriving DecidableEq

/-- Modelled from the spec: the printed attribute dictionary (`attr-dict`
in the declared assembly format; the generated printer is not in the
excerpt): the `boundsCheck` attribute followed by the `indexOffset`
attribute when present. -/
def printAttrDict (b : Bool) (io : Option Nat) : List Token :=
  Token.lbrace :: Token.kwBoundsCheck :: Token.equals :: Token.boolLit b ::
    (match io with
     | none => [Token.rbrace]
     | some n =>
       [Token.comma, Token.kwIndexOffset, Token.equals, Token.intLit n,
        Token.rbrace])

/-- Modelled from the spec: parsing of the attribute dictionary. -/
def parseAttrDict : List Token → Option ((Bool × Option Nat) × List Token)
  | .lbrace :: .kwBoundsCheck :: .equals :: .boolLit b :: rest =>
    match rest with
    | .rbrace :: r => some ((b, none), r)
    | .comma :: .kwIndexOffset :: .equals :: .intLit n :: .rbrace :: r =>
      some ((b, some n), r)
    | _ => none
  | _ => none

/-- Modelled from the spec: the printed index operand list, from the first
index to the closing bracket (`$indices` followed by the literal `]`). -/
def printIndices : List Nat → List Token
  | [] => [Token.rbracket]
  | n :: ns => Token.ssa n :: printIndicesTail ns
where
  printIndicesTail : List Nat → List Token
  | [] => [Token.rbracket]
  | n :: ns => Token.comma :: Token.ssa n :: printIndicesTail ns

/-- Modelled from the spec: parsing of the comma-separated index operand
list up to the closing bracket. -/
def parseIndices : List Token → Option (List Nat × List Token)
  | .rbracket :: r => some ([], r)
  | .ssa n :: rest =>
    match parseIndicesTail rest with
    | some (l, r) => some (n :: l, r)
    | none => none
  | _ => none
where
  parseIndicesTail : List Token → Option (List Nat × List Token)
  | .rbracket :: r => some ([], r)
  | .comma :: .ssa n :: rest =>
    match parseIndicesTail rest with
    | some (l, r) => some (n :: l, r)
    | none => none
  | _ => none

/-- Modelled from the spec: the printed optional `sgprOffset` clause. -/
def printSgpr : Option Nat → List Token
  | none => []
  | some s => [Token.kwSgprOffset, Token.ssa s]

/-- Modelled from the spec: parsing of the optional `sgprOffset` clause. -/
def parseSgpr : List Token → Option Nat × List Token
  | .kwSgprOffset :: .ssa s :: rest => (some s, rest)
  | ts => (none, ts)

/-- Modelled from the spec: the printed `type($indices)` segment, one
`i32` per index operand, comma separated. -/
def printI32s : Nat → List Token
  | 0 => []
  | n + 1 => Token.i32ty :: printI32sTail n
where
  printI32sTail : Nat → List Token
  | 0 => []
  | n + 1 => Token.comma :: Token.i32ty :: printI32sTail n

/-- Modelled from the spec: parsing of the comma-separated `i32` type
list; returns how many types were read. -/
def parseI32s : List Token → Nat × List Token
  | .i32ty :: rest =>
    let p := parseI32sTail rest
    (p.1 + 1, p.2)
  | ts => (0, ts)
where
  parseI32sTail : List Token → Nat × List Token
  | .comma :: .i32ty :: rest =>
    let p := parseI32sTail rest
    (p.1 + 1, p.2)
  | ts => (0, ts)

/-- Whether a token sequence cannot extend a comma-separated `i32` type
list (it starts neither with `i32` nor with `, i32`). -/
def stopsTypeList : List Token → Bool
  | .i32ty :: _ => false
  | .comma :: .i32ty :: _ => false
  | _ => true

/-- Modelled from the spec: the printed form of an operation, following
the declared assembly formats.  A load prints its result name, the
mnemonic, the attribute dictionary, `$memref [ $indices ]`, the optional
`sgprOffset` clause and the type signature
`type($memref), type($indices) -> type($value)`; store and atomic add
print the mnemonic, the attribute dictionary, `$value -> $memref
[ $indices ]`, the optional `sgprOffset` clause and the type signature
`type($value) -> type($memref), type($indices)`. -/
def printOp (op : BufferOp) : List Token :=
  match op.kind with
  | .load =>
    Token.ssa op.valueId :: Token.equals ::
      Token.mnemonic BufferOpKind.load ::
      (printAttrDict op.boundsCheck op.indexOffset ++
        (Token.ssa op.memrefId :: Token.lbracket ::
          (printIndices op.indices ++
            (printSgpr op.sgprOffset ++
              (Token.colon :: Token.mty op.memref :: Token.comma ::
                (printI32s op.indices.length ++
                  [Token.arrow, Token.vty op.valueType]))))))
  | .store => printStoreLike BufferOpKind.store op
  | .atomicFadd => printStoreLike BufferOpKind.atomicFadd op
where
  printStoreLike (k : BufferOpKind) (op : BufferOp) : List Token :=
    Token.mnemonic k ::
      (printAttrDict op.boundsCheck op.indexOffset ++
        (Token.ssa op.valueId :: Token.arrow ::
          Token.ssa op.memrefId :: Token.lbracket ::
          (printIndices op.indices ++
            (printSgpr op.sgprOffset ++
              (Token.colon :: Token.vty op.valueType :: Token.arrow ::
                Token.mty op.memref :: Token.comma ::
                printI32s op.indices.length)))))

/-- Modelled from the spec: parsing of the body of a load after its result
name and mnemonic. -/
def parseLoadBody (v : Nat) (ts : List Token) : Option BufferOp :=
  match parseAttrDict ts with
  | none => none
  | some ((b, io), r1) =>
    match r1 with
    | .ssa m :: .lbracket :: r2 =>
      match parseIndices r2 with
      | none => none
      | some (idxs, r3) =>
        match parseSgpr r3 with
        | (sg, r4) =>
          match r4 with
          | .colon :: .mty mt :: .comma :: r5 =>
            match parseI32s r5 with
            | (n, r6) =>
              if n = idxs.length then
                match r6 with
                | [.arrow, .vty vt] =>
                  some
                    { kind := BufferOpKind.load
                      valueId := v
                      valueType := vt
                      memrefId := m
                      memref := mt
                      indices := idxs
                      boundsCheck := b
                      indexOffset := io
                      sgprOffset := sg }
                | _ => none
              else none
          | _ => none
    | _ => none

/-- Modelled from the spec: parsing of the body of a store or atomic add
after its mnemonic. -/
def parseStoreLikeBody (k : BufferOpKind) (ts : List Token) :
    Option BufferOp :=
  match parseAttrDict ts with
  | none => none
  | some ((b, io), r1) =>
    match r1 with
    | .ssa v :: .arrow :: .ssa m :: .lbracket :: r2 =>
      match parseIndices r2 with
      | none => none
      | some (idxs, r3) =>
        match parseSgpr r3 with
        | (sg, r4) =>
          match r4 with
          | .colon :: .vty vt :: .arrow :: .mty mt :: .comma :: r5 =>
            match parseI32s r5 with
            | (n, r6) =>
              if n = idxs.length ∧ r6 = [] then
                some
                  { kind := k
                    valueId := v
                    valueType := vt
                    memrefId := m
                    memref := mt
                    indices := idxs
                    boundsCheck := b
                    indexOffset := io
                    sgprOffset := sg }
              else none
          | _ => none
    | _ => none

/-- Modelled from the spec: parsing of a raw buffer operation from its
surface form. -/
def parseOp : List Token → Option BufferOp
  | .ssa v :: .equals :: .mnemonic .load :: rest => parseLoadBody v rest
  | .mnemonic .store :: rest => parseStoreLikeBody BufferOpKind.store rest
  | .mnemonic .atomicFadd :: rest =>
    parseStoreLikeBody BufferOpKind.atomicFadd rest
  | _ => none

theorem parseAttrDict_print (b : Bool) (io : Option Nat)
    (rest : List Token) :
    parseAttrDict (printAttrDict b io ++ rest) = some ((b, io), rest) := by
  cases io <;> rfl

theorem parseIndicesTail_print (l : List Nat) (rest : List Token) :
    parseIndices.parseIndicesTail
      (printIndices.printIndicesTail l ++ rest) = some (l, rest) := by
  induction l with
  | nil => rfl
  | cons n ns ih =>
    simp [printIndices.printIndicesTail, parseIndices.parseIndicesTail, ih]

theorem parseIndices_print (l : List Nat) (rest : List Token) :
    parseIndices (printIndices l ++ rest) = some (l, rest) := by
  cases l with
  | nil => rfl
  | cons n ns =>
    simp [printIndices, parseIndices, parseIndicesTail_print]

theorem parseSgpr_print (so : Option Nat) (r : List Token) :
    parseSgpr (printSgpr so ++ (Token.colon :: r)) =
      (so, Token.colon :: r) := by
  cases so <;> rfl

theorem parseI32sTail_stop (ts : List Token) (h : stopsTypeList ts = true) :
    parseI32s.parseI32sTail ts = (0, ts) := by
  cases ts with
  | nil => rfl
  | cons t1 rest1 =>
    cases rest1 with
    | nil => cases t1 <;> rfl
    | cons t2 r =>
      cases t1 <;> try rfl
      cases t2 <;> try rfl
      simp [stopsTypeList] at h

theorem parseI32s_stop (ts : List Token) (h : stopsTypeList ts = true) :
    parseI32s ts = (0, ts) := by
  cases ts with
  | nil => rfl
  | cons t r =>
    cases t <;> try rfl
    simp [stopsTypeList] at h

theorem parseI32sTail_print (n : Nat) (rest : List Token)
    (h : stopsTypeList rest = true) :
    parseI32s.parseI32sTail (printI32s.printI32sTail n ++ rest) =
      (n, rest) := by
  induction n with
  | zero => simpa using parseI32sTail_stop rest h
  | succ n ih =>
    simp [printI32s.printI32sTail, parseI32s.parseI32sTail, ih]

theorem parseI32s_print (n : Nat) (rest : List Token)
    (h : stopsTypeList rest = true) :
    parseI32s (printI32s n ++ rest) = (n, rest) := by
  cases n with
  | zero => simpa using parseI32s_stop rest h
  | succ n => simp [printI32s, parseI32s, parseI32sTail_print n rest h]

theorem parseI32s_print_nil (n : Nat) : parseI32s (printI32s n) = (n, []) := by
  simpa using parseI32s_print n [] rfl

/-- Claim C8: printing an operation of any of the three variants in the
surface form and re-parsing the text reconstructs an operation equal in
every field to the original. -/
theorem print_parse_roundTrip (op : BufferOp) :
    parseOp (printOp op) = some op := by
  obtain ⟨k, v, vt, m, mt, idxs, b, io, sg⟩ := op
  cases k with
  | load =>
    simp [printOp, parseOp, parseLoadBody, parseAttrDict_print,
      parseIndices_print, parseSgpr_print, parseI32s_print, stopsTypeList]
  | store =>
    simp [printOp, printOp.printStoreLike, parseOp, parseStoreLikeBody,
      parseAttrDict_print, parseIndices_print, parseSgpr_print,
      parseI32s_print_nil]
  | atomicFadd =>
    simp [printOp, printOp.printStoreLike, parseOp, parseStoreLikeBody,
      parseAttrDict_print, parseIndices_print, parseSgpr_print,
      parseI32s_print_nil]

/-! ## libc++ `__set_intersection` -/

/-- libc++'s `std::__set_intersection` loop, translated from the C++:
while both ranges are nonempty, if `comp x y` advance the first range;
otherwise, if additionally `¬ comp y x`, copy the element from the first
range and advance it, and in either case advance the second range.  The
iterator pair of the C++ result struct is dropped; the written output
sequence is returned. -/
def setIntersection {α : Type} (comp : α → α → Bool) :
    List α → List α → List α
  | [], _ => []
  | _ :: _, [] => []
  | x :: xs, y :: ys =>
    if comp x y then setIntersection comp xs (y :: ys)
    else if comp y x then setIntersection comp (x :: xs) ys
    else x :: setIntersection comp xs ys
termination_by l1 l2 => l1.length + l2.length

/-- The number of iterations the `__set_intersection` loop performs,
counted along the same recursion structure as the loop itself. -/
def setIntersectionSteps {α : Type} (comp : α → α → Bool) :
    List α → List α → Nat
  | [], _ => 0
  | _ :: _, [] => 0
  | x :: xs, y :: ys =>
    1 + (if comp x y then setIntersectionSteps comp xs (y :: ys)
         else if comp y x then setIntersectionSteps comp (x :: xs) ys
         else setIntersectionSteps comp xs ys)
termination_by l1 l2 => l1.length + l2.length

/-- The strict-order comparator instantiating the `__comp` template
parameter, as `std::set_intersection` defaults it to `__less`. -/
def ltComp {α : Type} [LinearOrder α] : α → α → Bool :=
  fun a b => decide (a < b)

/-- Claim C10: the loop runs at most `|l1| + |l2|` iterations — every
iteration advances at least one of the two input iterators, so the sum of
the remaining lengths strictly decreases until one range is exhausted. -/
theorem setIntersectionSteps_bound {α : Type} (comp : α → α → Bool) :
    ∀ l1 l2 : List α,
      setIntersectionSteps comp l1 l2 ≤ l1.length + l2.length
  | [], l2 => by simp [setIntersectionSteps]
  | x :: xs, [] => by simp [setIntersectionSteps]
  | x :: xs, y :: ys => by
    cases h1 : comp x y with
    | true =>
      have ih := setIntersectionSteps_bound comp xs (y :: ys)
      simp only [List.length_cons] at ih
      simp [setIntersectionSteps, h1]
      omega
    | false =>
      cases h2 : comp y x with
      | true =>
        have ih := setIntersectionSteps_bound comp (x :: xs) ys
        simp only [List.length_cons] at ih
        simp [setIntersectionSteps, h1, h2]
        omega
      | false =>
        have ih := setIntersectionSteps_bound comp xs ys
        simp [setIntersectionSteps, h1, h2]
        omega
termination_by l1 l2 => l1.length + l2.length

theorem setIntersection_sublist {α : Type} (comp : α → α → Bool) :
    ∀ l1 l2 : List α, (setIntersection comp l1 l2).Sublist l1
  | [], l2 => by simp [setIntersection]
  | x :: xs, [] => by simp [setIntersection]
  | x :: xs, y :: ys => by
    cases h1 : comp x y with
    | true =>
      have ih := setIntersection_sublist comp xs (y :: ys)
      simp [setIntersection, h1]
      exact ih.trans (List.sublist_cons_self x xs)
    | false =>
      cases h2 : comp y x with
      | true =>
        have ih := setIntersection_sublist comp (x :: xs) ys
        simpa [setIntersection, h1, h2] using ih
      | false =>
        have ih := setIntersection_sublist comp xs ys
        simp [setIntersection, h1, h2]
        exact ih
termination_by l1 l2 => l1.length + l2.length

theorem count_eq_zero_of_lt_head {α : Type} [LinearOrder α]
    [DecidableEq α] (x y : α) (ys : List α)
    (hs : List.Sorted (· ≤ ·) (y :: ys)) (hxy : x < y) :
    List.count x (y :: ys) = 0 := by
  rw [List.count_eq_zero]
  intro hmem
  rcases List.mem_cons.mp hmem with h | h
  · exact absurd hxy (by simp [h])
  · exact absurd hxy (not_lt.mpr ((List.sorted_cons.mp hs).1 x h))

theorem setIntersection_count {α : Type} [LinearOrder α] [DecidableEq α] :
    ∀ (l1 l2 : List α), List.Sorted (· ≤ ·) l1 → List.Sorted (· ≤ ·) l2 →
      ∀ v, List.count v (setIntersection ltComp l1 l2) =
        min (List.count v l1) (List.count v l2)
  | [], l2, _, _, v => by simp [setIntersection]
  | x :: xs, [], _, _, v => by simp [setIntersection]
  | x :: xs, y :: ys, h1, h2, v => by
    rcases lt_trichotomy x y with hxy | hxy | hxy
    · have ih := setIntersection_count xs (y :: ys)
        (List.sorted_cons.mp h1).2 h2 v
      have hc1 : ltComp x y = true := by simp [ltComp, hxy]
      rw [show setIntersection ltComp (x :: xs) (y :: ys) =
            setIntersection ltComp xs (y :: ys) from by
          simp [setIntersection, hc1]]
      rw [ih]
      by_cases hv : v = x
      · subst hv
        rw [count_eq_zero_of_lt_head v y ys h2 hxy]
        simp
      · simp [List.count_cons, hv]
    · subst hxy
      have ih := setIntersection_count xs ys
        (List.sorted_cons.mp h1).2 (List.sorted_cons.mp h2).2 v
      rw [show setIntersection ltComp (x :: xs) (x :: ys) =
            x :: setIntersection ltComp xs ys from by
          simp [setIntersection, ltComp]]
      rw [List.count_cons, ih]
      by_cases hv : v = x
      · simp [List.count_cons, beq_iff_eq, hv]
        omega
      · simp [List.count_cons, beq_iff_eq, hv]
        exact fun h => hv h.symm
    · have hc1 : ltComp x y = false := by
        simp only [ltComp, decide_eq_false_iff_not]
        exact not_lt.mpr hxy.le
      have hc2 : ltComp y x = true := by simp [ltComp, hxy]
      have ih := setIntersection_count (x :: xs) ys h1
        (List.sorted_cons.mp h2).2 v
      rw [show setIntersection ltComp (x :: xs) (y :: ys) =
            setIntersection ltComp (x :: xs) ys from by
          simp [setIntersection, hc1, hc2]]
      rw [ih]
      by_cases hv : v = y
      · subst hv
        rw [count_eq_zero_of_lt_head v x xs h1 hxy]
        simp
      · simp [List.count_cons, hv]
termination_by l1 l2 _ _ _ => l1.length + l2.length

/-- Claim C9: on inputs sorted with respect to the comparator,
`__set_intersection` writes exactly the multiset intersection — every
value appears `min(count in range 1, count in range 2)` times — and the
output is a sublist of the first range (hence sorted, and every written
element is copied from the first range, never from the second). -/
theorem setIntersection_correct {α : Type} [LinearOrder α] [DecidableEq α]
    (l1 l2 : List α) (h1 : List.Sorted (· ≤ ·) l1)
    (h2 : List.Sorted (· ≤ ·) l2) :
    (∀ v, List.count v (setIntersection ltComp l1 l2) =
      min (List.count v l1) (List.count v l2)) ∧
    List.Sorted (· ≤ ·) (setIntersection ltComp l1 l2) ∧
    (setIntersection ltComp l1 l2).Sublist l1 :=
  ⟨setIntersection_count l1 l2 h1 h2,
   h1.sublist (setIntersection_sublist ltComp l1 l2),
   setIntersection_sublist ltComp l1 l2⟩

/-- Claim C9, witnessed on `[1, 2, 2, 3]` and `[2, 2, 4]`: the value 2
appears `min 2 2 = 2` times in the output and the output is a sublist of
the first input. -/
theorem setIntersection_correct_witness :
    List.count 2 (setIntersection ltComp [1, 2, 2, 3] [2, 2, 4]) = 2 ∧
    (setIntersection ltComp [1, 2, 2, 3] [2, 2, 4]).Sublist
      [1, 2, 2, 3] := by
  have h := setIntersection_correct [1, 2, 2, 3] [2, 2, 4]
    (by decide) (by decide)
  refine ⟨?_, h.2.2⟩
  rw [h.1 2]
  decide
